import Mathlib

/-!
Shallow embedding of `coding_monitor.py` (class `CodingTimeMonitor`).

Time values (Python `time.time()` floats) are modelled as rationals.
The external collaborators are modelled as explicit outcome parameters:
the frontmost-app query result (`QueryOutcome`) and the two Slack HTTP
calls (`NetOutcome`).
-/

namespace CodingMonitor

/-- Python `str.lower` on one character (ASCII case mapping, which covers
every app name and pattern the program uses). -/
def char_lower (c : Char) : Char :=
  if 'A' ≤ c ∧ c ≤ 'Z' then Char.ofNat (c.toNat + 32) else c

/-- Python `str.lower`. -/
def py_lower (s : String) : String :=
  ⟨s.data.map char_lower⟩

/-- Drop leading whitespace from a character list. -/
def charlist_dropWs : List Char → List Char
  | [] => []
  | c :: cs => if c.isWhitespace then charlist_dropWs cs else c :: cs

/-- Python `str.strip`: remove leading and trailing whitespace. -/
def py_strip (s : String) : String :=
  ⟨((charlist_dropWs ((charlist_dropWs s.data).reverse)).reverse)⟩

/-- Python `needle in haystack` prefix check on character lists:
does the first list occur at the head of the second? -/
def charlist_startsWith : List Char → List Char → Bool
  | [], _ => true
  | _ :: _, [] => false
  | a :: as, b :: bs => a == b && charlist_startsWith as bs

/-- Python `needle in haystack` on character lists: contiguous subsequence test. -/
def charlist_containsSeq : List Char → List Char → Bool
  | needle, [] => needle.isEmpty
  | needle, b :: bs => charlist_startsWith needle (b :: bs) || charlist_containsSeq needle bs

/-- Python `needle in haystack` for strings (substring containment). -/
def str_in (needle haystack : String) : Bool :=
  charlist_containsSeq needle.toList haystack.toList

/-- The configuration mapping loaded by `load_config` (only the keys the
monitor reads). Numeric JSON values are modelled as rationals. -/
structure Config where
  slack_token : String
  coding_apps : List String
  deep_mode_threshold_seconds : ℚ
  check_interval_seconds : ℚ
  dnd_duration_minutes : ℚ
  status_update_interval_seconds : ℚ
  deriving Repr, DecidableEq

/-- The mutable state of `CodingTimeMonitor` (lines 38-43 of the source). -/
structure MonitorState where
  current_app : String
  app_start_time : Option ℚ
  continuous_coding_time : ℚ
  total_coding_time : ℚ
  deep_mode_active : Bool
  last_status_update : ℚ
  deriving Repr, DecidableEq

/-- `CodingTimeMonitor.__init__`: all-zero initial state. -/
def initial_state : MonitorState :=
  { current_app := ""
    app_start_time := none
    continuous_coding_time := 0
    total_coding_time := 0
    deep_mode_active := false
    last_status_update := 0 }

/-- `is_coding_app`: `any(app.lower() in app_name.lower() for app in coding_apps)`. -/
def is_coding_app (cfg : Config) (app_name : String) : Bool :=
  cfg.coding_apps.any fun app => str_in (py_lower app) (py_lower app_name)

/-- Outcome of the external frontmost-app query in `get_active_app`:
either `communicate()` returned stdout/stderr (with some exit code,
which the code never inspects), or an exception was raised. -/
inductive QueryOutcome where
  | completed (stdout stderr : String) (exitCode : Int)
  | exn
  deriving Repr, DecidableEq

/-- `get_active_app`: returns "Unknown" on an exception or when the
query wrote to stderr; otherwise the stripped stdout. -/
def get_active_app (q : QueryOutcome) : String :=
  match q with
  | .exn => "Unknown"
  | .completed out err _ => if err = "" then py_strip out else "Unknown"

/-- Outcome of one Slack HTTP POST: an exception, or a JSON reply whose
`ok` field is the given boolean. -/
inductive NetOutcome where
  | exn
  | reply (ok : Bool)
  deriving Repr, DecidableEq

/-- `set_slack_dnd`: first component is the returned boolean, second
records whether network I/O was attempted. -/
def set_slack_dnd (cfg : Config) (net : NetOutcome) : Bool × Bool :=
  if cfg.slack_token = "" then (false, false)
  else
    match net with
    | .exn => (false, true)
    | .reply ok => (ok, true)

/-- `set_slack_status`: first component is the returned boolean, second
records whether network I/O was attempted. -/
def set_slack_status (cfg : Config) (net : NetOutcome) : Bool × Bool :=
  if cfg.slack_token = "" then (false, false)
  else
    match net with
    | .exn => (false, true)
    | .reply ok => (ok, true)

/-- The guard on line 184 of `enable_deep_mode`: the remote actions are
issued exactly when it holds. -/
def engage_issues (cfg : Config) (s : MonitorState) (now : ℚ) : Bool :=
  !s.deep_mode_active ||
    decide (now - s.last_status_update > cfg.status_update_interval_seconds)

/-- `enable_deep_mode` (lines 179-202): returns the boolean result and
the updated state. -/
def enable_deep_mode (cfg : Config) (s : MonitorState) (now : ℚ)
    (dndNet statusNet : NetOutcome) : Bool × MonitorState :=
  if engage_issues cfg s now then
    if (set_slack_dnd cfg dndNet).1 || (set_slack_status cfg statusNet).1 then
      (true, { s with deep_mode_active := true, last_status_update := now })
    else
      (false, s)
  else
    (true, s)

/-- Inputs of one sampling tick: the sampled app name, the loop
variable `current_time`, and the outcomes of the two Slack calls should they be
attempted. -/
structure TickInput where
  app_name : String
  now : ℚ
  dnd : NetOutcome
  status : NetOutcome
  deriving Repr

/-- Coding branch of the loop body (lines 221-239): flush on app change,
update current app / start time, increment continuous time. -/
def coding_update (cfg : Config) (s : MonitorState) (app_name : String) (now : ℚ) :
    MonitorState :=
  let s1 :=
    if s.current_app = app_name then s
    else
      let s2 :=
        match s.app_start_time with
        | some st =>
          if is_coding_app cfg s.current_app then
            { s with total_coding_time := s.total_coding_time + (now - st) }
          else s
        | none => s
      { s2 with current_app := app_name, app_start_time := some now }
  { s1 with continuous_coding_time := s1.continuous_coding_time + cfg.check_interval_seconds }

/-- Non-coding branch of the loop body (lines 245-259): flush and reset
the session if one was running, then record the new current app. -/
def noncoding_update (s : MonitorState) (app_name : String) (now : ℚ) : MonitorState :=
  let s1 :=
    if 0 < s.continuous_coding_time then
      let s2 :=
        match s.app_start_time with
        | some st =>
          { s with
              total_coding_time := s.total_coding_time + (now - st)
              app_start_time := none }
        | none => s
      { s2 with continuous_coding_time := 0 }
    else s
  { s1 with current_app := app_name }

/-- One iteration of the app-check body (lines 216-259), after the
sample has been taken. -/
def tick (cfg : Config) (s : MonitorState) (inp : TickInput) : MonitorState :=
  if is_coding_app cfg inp.app_name then
    if cfg.deep_mode_threshold_seconds
          ≤ (coding_update cfg s inp.app_name inp.now).continuous_coding_time ∧
        (coding_update cfg s inp.app_name inp.now).deep_mode_active = false then
      (enable_deep_mode cfg (coding_update cfg s inp.app_name inp.now) inp.now
        inp.dnd inp.status).2
    else coding_update cfg s inp.app_name inp.now
  else
    noncoding_update s inp.app_name inp.now

/-- Iterated ticks. -/
def tick_seq (cfg : Config) (s : MonitorState) : List TickInput → MonitorState
  | [] => s
  | inp :: rest => tick_seq cfg (tick cfg s inp) rest

/-- The guard on line 242: does this tick call `enable_deep_mode`? -/
def tick_invokes_engage (cfg : Config) (s : MonitorState) (inp : TickInput) : Bool :=
  is_coding_app cfg inp.app_name &&
    (decide (cfg.deep_mode_threshold_seconds
        ≤ (coding_update cfg s inp.app_name inp.now).continuous_coding_time) &&
      !(coding_update cfg s inp.app_name inp.now).deep_mode_active)

/-- Does this tick issue the remote Slack actions? -/
def tick_issues (cfg : Config) (s : MonitorState) (inp : TickInput) : Bool :=
  tick_invokes_engage cfg s inp &&
    engage_issues cfg (coding_update cfg s inp.app_name inp.now) inp.now

/-- Number of ticks in a run that issue the remote Slack actions. -/
def seq_issues (cfg : Config) (s : MonitorState) : List TickInput → Nat
  | [] => 0
  | inp :: rest =>
    (cond (tick_issues cfg s inp) 1 0) + seq_issues cfg (tick cfg s inp) rest

/-! Helper lemmas -/

theorem enable_tracker_fields (cfg : Config) (s : MonitorState) (now : ℚ)
    (d st : NetOutcome) :
    ((enable_deep_mode cfg s now d st).2).current_app = s.current_app ∧
    ((enable_deep_mode cfg s now d st).2).app_start_time = s.app_start_time ∧
    ((enable_deep_mode cfg s now d st).2).continuous_coding_time = s.continuous_coding_time ∧
    ((enable_deep_mode cfg s now d st).2).total_coding_time = s.total_coding_time := by
  unfold enable_deep_mode
  split
  · split <;> simp
  · simp

theorem enable_active_mono (cfg : Config) (s : MonitorState) (now : ℚ)
    (d st : NetOutcome) (h : s.deep_mode_active = true) :
    ((enable_deep_mode cfg s now d st).2).deep_mode_active = true := by
  unfold enable_deep_mode
  split
  · split <;> simp [h]
  · simpa using h

theorem enable_success (cfg : Config) (s : MonitorState) (now : ℚ) (d st : NetOutcome)
    (hg : engage_issues cfg s now = true)
    (hok : ((set_slack_dnd cfg d).1 || (set_slack_status cfg st).1) = true) :
    enable_deep_mode cfg s now d st
      = (true, { s with deep_mode_active := true, last_status_update := now }) := by
  unfold enable_deep_mode
  rw [if_pos hg]
  simp only [hok, if_pos]

theorem coding_update_continuous (cfg : Config) (s : MonitorState) (n : String) (t : ℚ) :
    (coding_update cfg s n t).continuous_coding_time
      = s.continuous_coding_time + cfg.check_interval_seconds := by
  unfold coding_update
  split
  · simp
  · split <;> (try split) <;> simp

theorem coding_update_current (cfg : Config) (s : MonitorState) (n : String) (t : ℚ) :
    (coding_update cfg s n t).current_app = n := by
  unfold coding_update
  split
  · simp_all
  · split <;> (try split) <;> simp

theorem coding_update_mode_fields (cfg : Config) (s : MonitorState) (n : String) (t : ℚ) :
    (coding_update cfg s n t).deep_mode_active = s.deep_mode_active ∧
    (coding_update cfg s n t).last_status_update = s.last_status_update := by
  unfold coding_update
  split
  · simp
  · split <;> (try split) <;> simp

theorem coding_update_same (cfg : Config) (s : MonitorState) (n : String) (t : ℚ)
    (h : s.current_app = n) :
    coding_update cfg s n t
      = { s with continuous_coding_time :=
            s.continuous_coding_time + cfg.check_interval_seconds } := by
  unfold coding_update
  rw [if_pos h]

theorem coding_update_flush (cfg : Config) (s : MonitorState) (n : String) (t : ℚ) (a : ℚ)
    (hdiff : ¬s.current_app = n)
    (hprev : is_coding_app cfg s.current_app = true)
    (hstart : s.app_start_time = some a) :
    coding_update cfg s n t
      = { s with
            current_app := n
            app_start_time := some t
            total_coding_time := s.total_coding_time + (t - a)
            continuous_coding_time :=
              s.continuous_coding_time + cfg.check_interval_seconds } := by
  unfold coding_update
  rw [if_neg hdiff, hstart]
  simp [hprev]

theorem coding_update_noflush (cfg : Config) (s : MonitorState) (n : String) (t : ℚ)
    (hdiff : ¬s.current_app = n)
    (h : s.app_start_time = none ∨ is_coding_app cfg s.current_app = false) :
    coding_update cfg s n t
      = { s with
            current_app := n
            app_start_time := some t
            continuous_coding_time :=
              s.continuous_coding_time + cfg.check_interval_seconds } := by
  unfold coding_update
  rw [if_neg hdiff]
  rcases h with h | h
  · rw [h]
  · cases hst : s.app_start_time <;> simp [h]

theorem noncoding_update_flush (s : MonitorState) (n : String) (t : ℚ) (a : ℚ)
    (hc : 0 < s.continuous_coding_time) (hstart : s.app_start_time = some a) :
    noncoding_update s n t
      = { s with
            current_app := n
            app_start_time := none
            continuous_coding_time := 0
            total_coding_time := s.total_coding_time + (t - a) } := by
  unfold noncoding_update
  rw [if_pos hc, hstart]

theorem noncoding_update_skip (s : MonitorState) (n : String) (t : ℚ)
    (hc : ¬0 < s.continuous_coding_time) :
    noncoding_update s n t = { s with current_app := n } := by
  unfold noncoding_update
  rw [if_neg hc]

theorem tick_coding_tracker (cfg : Config) (s : MonitorState) (inp : TickInput)
    (h : is_coding_app cfg inp.app_name = true) :
    (tick cfg s inp).current_app = (coding_update cfg s inp.app_name inp.now).current_app ∧
    (tick cfg s inp).app_start_time = (coding_update cfg s inp.app_name inp.now).app_start_time ∧
    (tick cfg s inp).continuous_coding_time
      = (coding_update cfg s inp.app_name inp.now).continuous_coding_time ∧
    (tick cfg s inp).total_coding_time
      = (coding_update cfg s inp.app_name inp.now).total_coding_time := by
  unfold tick
  rw [if_pos h]
  split
  · exact ⟨(enable_tracker_fields _ _ _ _ _).1, (enable_tracker_fields _ _ _ _ _).2.1,
      (enable_tracker_fields _ _ _ _ _).2.2.1, (enable_tracker_fields _ _ _ _ _).2.2.2⟩
  · exact ⟨rfl, rfl, rfl, rfl⟩

theorem tick_noncoding (cfg : Config) (s : MonitorState) (inp : TickInput)
    (h : is_coding_app cfg inp.app_name = false) :
    tick cfg s inp = noncoding_update s inp.app_name inp.now := by
  unfold tick
  rw [if_neg (by simp [h])]

theorem tick_active_mono (cfg : Config) (s : MonitorState) (inp : TickInput)
    (h : s.deep_mode_active = true) :
    (tick cfg s inp).deep_mode_active = true := by
  unfold tick
  split
  · split
    · exact enable_active_mono _ _ _ _ _
        ((coding_update_mode_fields cfg s inp.app_name inp.now).1.trans h)
    · exact (coding_update_mode_fields cfg s inp.app_name inp.now).1.trans h
  · unfold noncoding_update
    split
    · split <;> simpa using h
    · simpa using h

theorem coding_run (cfg : Config) (ws : List TickInput) :
    ∀ (s : MonitorState) (a : ℚ),
    (∀ x ∈ ws, is_coding_app cfg x.app_name = true) →
    is_coding_app cfg s.current_app = true →
    s.app_start_time = some a →
    ∃ a2, (tick_seq cfg s ws).app_start_time = some a2 ∧
      (tick_seq cfg s ws).total_coding_time - a2 = s.total_coding_time - a ∧
      is_coding_app cfg (tick_seq cfg s ws).current_app = true ∧
      (tick_seq cfg s ws).continuous_coding_time
        = s.continuous_coding_time + ws.length * cfg.check_interval_seconds := by
  induction ws with
  | nil =>
    intro s a _ hcur hstart
    exact ⟨a, hstart, rfl, hcur, by simp [tick_seq]⟩
  | cons x xs ih =>
    intro s a hall hcur hstart
    simp only [tick_seq]
    have hx : is_coding_app cfg x.app_name = true := hall x (List.mem_cons_self x xs)
    have hxs : ∀ y ∈ xs, is_coding_app cfg y.app_name = true :=
      fun y hy => hall y (List.mem_cons_of_mem x hy)
    obtain ⟨hc, hs, hk, ht⟩ := tick_coding_tracker cfg s x hx
    -- the state after the first tick
    have hcur2 : is_coding_app cfg (tick cfg s x).current_app = true := by
      rw [hc, coding_update_current]; exact hx
    by_cases hsame : s.current_app = x.app_name
    · -- no app change: start time and total are untouched
      have heq := coding_update_same cfg s x.app_name x.now hsame
      obtain ⟨a2, h1, h2, h3, h4⟩ := ih (tick cfg s x) a hxs hcur2 (by rw [hs, heq]; exact hstart)
      refine ⟨a2, by simpa using h1, ?_, h3, ?_⟩
      · rw [h2, ht, heq]
      · rw [h4, hk, heq]
        simp only [List.length_cons]
        push_cast
        ring
    · -- app change: the session for the old app is flushed
      have heq := coding_update_flush cfg s x.app_name x.now a hsame hcur hstart
      obtain ⟨a2, h1, h2, h3, h4⟩ := ih (tick cfg s x) x.now hxs hcur2 (by rw [hs, heq])
      refine ⟨a2, by simpa using h1, ?_, h3, ?_⟩
      · rw [h2, ht, heq]
        dsimp only
        ring
      · rw [h4, hk, heq]
        simp only [List.length_cons]
        push_cast
        ring

theorem coding_run_continuous (cfg : Config) (ws : List TickInput) :
    ∀ s : MonitorState,
    (∀ x ∈ ws, is_coding_app cfg x.app_name = true) →
    (tick_seq cfg s ws).continuous_coding_time
      = s.continuous_coding_time + ws.length * cfg.check_interval_seconds := by
  induction ws with
  | nil => intro s _; simp [tick_seq]
  | cons x xs ih =>
    intro s hall
    have hx : is_coding_app cfg x.app_name = true := hall x (List.mem_cons_self x xs)
    have hxs : ∀ y ∈ xs, is_coding_app cfg y.app_name = true :=
      fun y hy => hall y (List.mem_cons_of_mem x hy)
    show (tick_seq cfg (tick cfg s x) xs).continuous_coding_time = _
    rw [ih (tick cfg s x) hxs, (tick_coding_tracker cfg s x hx).2.2.1,
      coding_update_continuous]
    simp only [List.length_cons]
    push_cast
    ring

/-- The reachability invariant behind claim C5. -/
def StateInv (cfg : Config) (s : MonitorState) : Prop :=
  (is_coding_app cfg s.current_app = true → s.app_start_time.isSome = true) ∧
  (0 < s.continuous_coding_time → is_coding_app cfg s.current_app = true)

theorem tick_preserves_inv (cfg : Config) (s : MonitorState) (inp : TickInput)
    (h : StateInv cfg s) : StateInv cfg (tick cfg s inp) := by
  by_cases hcode : is_coding_app cfg inp.app_name = true
  · obtain ⟨hc, hs, hk, _⟩ := tick_coding_tracker cfg s inp hcode
    constructor
    · intro _
      rw [hs]
      by_cases hsame : s.current_app = inp.app_name
      · rw [coding_update_same cfg s inp.app_name inp.now hsame]
        exact h.1 (hsame ▸ hcode)
      · unfold coding_update
        rw [if_neg hsame]
        split <;> simp
    · intro _
      rw [hc, coding_update_current]
      exact hcode
  · rw [tick_noncoding cfg s inp (by simpa using hcode)]
    constructor
    · intro hcur
      exfalso
      unfold noncoding_update at hcur
      revert hcur
      split <;> (try split) <;> (simp only; intro hcur; simp [hcur] at hcode)
    · intro hpos
      exfalso
      revert hpos
      unfold noncoding_update
      split
      · split <;> simp
      · rename_i hle
        simp only
        intro hpos
        exact hle hpos

theorem tick_seq_preserves_inv (cfg : Config) (ws : List TickInput) :
    ∀ s : MonitorState, StateInv cfg s → StateInv cfg (tick_seq cfg s ws) := by
  induction ws with
  | nil => intro s h; exact h
  | cons x xs ih => intro s h; exact ih (tick cfg s x) (tick_preserves_inv cfg s x h)

theorem noncoding_update_reset_nostart (s : MonitorState) (n : String) (t : ℚ)
    (hc : 0 < s.continuous_coding_time) (hstart : s.app_start_time = none) :
    noncoding_update s n t
      = { s with current_app := n, continuous_coding_time := 0 } := by
  unfold noncoding_update
  rw [if_pos hc]
  simp [hstart]

theorem tick_first_coding (cfg : Config) (s : MonitorState) (inp : TickInput)
    (hcode : is_coding_app cfg inp.app_name = true)
    (hcur : is_coding_app cfg s.current_app = false) :
    (tick cfg s inp).current_app = inp.app_name ∧
    (tick cfg s inp).app_start_time = some inp.now ∧
    (tick cfg s inp).continuous_coding_time
      = s.continuous_coding_time + cfg.check_interval_seconds ∧
    (tick cfg s inp).total_coding_time = s.total_coding_time := by
  have hdiff : ¬s.current_app = inp.app_name := fun h => by
    rw [h, hcode] at hcur; exact Bool.true_eq_false.mp hcur
  obtain ⟨hc, hs, hk, ht⟩ := tick_coding_tracker cfg s inp hcode
  rw [hc, hs, hk, ht, coding_update_noflush cfg s inp.app_name inp.now hdiff (Or.inr hcur)]
  exact ⟨rfl, rfl, rfl, rfl⟩

/-! Claim theorems -/

/-- A fixed sample configuration used to instantiate universally
quantified claims on concrete inputs. -/
def cfgA : Config :=
  { slack_token := "tok"
    coding_apps := ["code", "vim"]
    deep_mode_threshold_seconds := 3
    check_interval_seconds := 1
    dnd_duration_minutes := 60
    status_update_interval_seconds := 1800 }

/-- The sample configuration with no Slack token configured. -/
def cfgNoTok : Config := { cfgA with slack_token := "" }

/-- A degenerate configuration whose pattern list holds the empty
string, so that every app name — the empty one included — classifies as
coding. -/
def cfgEmptyPat : Config := { cfgA with coding_apps := [""] }

/-- C3: starting from `continuousCodingSeconds = 0`, after N consecutive
coding-classified ticks `continuousCodingSeconds` equals
`N * sampleInterval`. -/
theorem c3_continuous_accumulation (cfg : Config) (s : MonitorState) (ws : List TickInput)
    (h0 : s.continuous_coding_time = 0)
    (hall : ∀ x ∈ ws, is_coding_app cfg x.app_name = true) :
    (tick_seq cfg s ws).continuous_coding_time
      = ws.length * cfg.check_interval_seconds := by
  rw [coding_run_continuous cfg ws s hall, h0, zero_add]

theorem c3_witness :
    (tick_seq cfgA initial_state
        [⟨"Code", 0, .exn, .exn⟩, ⟨"Vim", 1, .exn, .exn⟩]).continuous_coding_time
      = ([⟨"Code", 0, .exn, .exn⟩, ⟨"Vim", 1, .exn, .exn⟩] : List TickInput).length
          * cfgA.check_interval_seconds := by
  refine c3_continuous_accumulation cfgA initial_state _ rfl ?_
  intro x hx
  simp only [List.mem_cons, List.not_mem_nil, or_false] at hx
  rcases hx with rfl | rfl <;> decide

/-- C4: a coding tick whose app name differs from the (coding) current
app does not reset the continuous counter — it is incremented as usual —
and flushes the time elapsed since `appStartTime` into
`totalCodingSeconds`. -/
theorem c4_coding_switch (cfg : Config) (s : MonitorState) (inp : TickInput) (a : ℚ)
    (hcode : is_coding_app cfg inp.app_name = true)
    (hdiff : ¬s.current_app = inp.app_name)
    (hprev : is_coding_app cfg s.current_app = true)
    (hstart : s.app_start_time = some a) :
    (tick cfg s inp).continuous_coding_time
      = s.continuous_coding_time + cfg.check_interval_seconds ∧
    (tick cfg s inp).total_coding_time = s.total_coding_time + (inp.now - a) := by
  obtain ⟨_, _, hk, ht⟩ := tick_coding_tracker cfg s inp hcode
  rw [hk, ht, coding_update_flush cfg s inp.app_name inp.now a hdiff hprev hstart]
  exact ⟨rfl, rfl⟩

theorem c4_witness :
    (tick cfgA ⟨"Code", some 0, 5, 7, false, 0⟩
        ⟨"Vim", 9, .exn, .exn⟩).continuous_coding_time
      = 5 + cfgA.check_interval_seconds ∧
    (tick cfgA ⟨"Code", some 0, 5, 7, false, 0⟩
        ⟨"Vim", 9, .exn, .exn⟩).total_coding_time = 7 + (9 - 0) :=
  c4_coding_switch cfgA ⟨"Code", some 0, 5, 7, false, 0⟩ ⟨"Vim", 9, .exn, .exn⟩ 0
    (by decide) (by decide) (by decide) rfl

/-- C5 counterexample: under a configuration holding an empty pattern,
the empty app name classifies as coding, so one tick with the empty name
(the initial `currentApp`) takes the same-app path: it increments
`continuousCodingSeconds` without ever setting `appStartTime`. -/
theorem c5_counterexample :
    0 < (tick_seq cfgEmptyPat initial_state
        [⟨"", 0, .exn, .exn⟩]).continuous_coding_time ∧
    (tick_seq cfgEmptyPat initial_state
        [⟨"", 0, .exn, .exn⟩]).app_start_time = none := by
  norm_num [tick_seq, tick, coding_update, noncoding_update, initial_state,
    enable_deep_mode, engage_issues, set_slack_dnd, set_slack_status,
    show is_coding_app cfgEmptyPat "" = true from by decide,
    show cfgEmptyPat.check_interval_seconds = 1 from rfl,
    show cfgEmptyPat.deep_mode_threshold_seconds = 3 from rfl]

/-- C5 (amended): in every state reachable from the initial state,
`continuousCodingSeconds > 0` implies `appStartTime` is set and the
current app classifies as coding, provided the empty app name does not
classify as coding under the configuration (true of every configuration
with no empty pattern, the default included). -/
theorem c5_reachable_invariant (cfg : Config) (ws : List TickInput)
    (h0 : is_coding_app cfg "" = false)
    (hpos : 0 < (tick_seq cfg initial_state ws).continuous_coding_time) :
    (tick_seq cfg initial_state ws).app_start_time.isSome = true ∧
    is_coding_app cfg (tick_seq cfg initial_state ws).current_app = true := by
  have hinv : StateInv cfg initial_state := by
    constructor
    · intro h
      rw [show initial_state.current_app = "" from rfl, h0] at h
      exact absurd h (by simp)
    · intro h
      exact absurd h (by norm_num [initial_state])
  have hres := tick_seq_preserves_inv cfg ws initial_state hinv
  exact ⟨hres.1 (hres.2 hpos), hres.2 hpos⟩

theorem c5_witness :
    (tick_seq cfgA initial_state [⟨"Code", 0, .exn, .exn⟩]).app_start_time.isSome = true ∧
    is_coding_app cfgA
      (tick_seq cfgA initial_state [⟨"Code", 0, .exn, .exn⟩]).current_app = true := by
  refine c5_reachable_invariant cfgA [⟨"Code", 0, .exn, .exn⟩] (by decide) ?_
  norm_num [tick_seq, tick, coding_update, noncoding_update, initial_state,
    enable_deep_mode, engage_issues, set_slack_dnd, set_slack_status,
    show is_coding_app cfgA "Code" = true from by decide,
    show ("" : String) ≠ "Code" from by decide,
    show cfgA.check_interval_seconds = 1 from rfl,
    show cfgA.deep_mode_threshold_seconds = 3 from rfl]

/-- C8: no tick decreases `totalCodingSeconds`, provided that the
timestamp supplied to the tick is not earlier than the recorded `appStartTime`. -/
theorem c8_total_monotone (cfg : Config) (s : MonitorState) (inp : TickInput)
    (h : ∀ a : ℚ, s.app_start_time = some a → a ≤ inp.now) :
    s.total_coding_time ≤ (tick cfg s inp).total_coding_time := by
  by_cases hcode : is_coding_app cfg inp.app_name = true
  · rw [(tick_coding_tracker cfg s inp hcode).2.2.2]
    by_cases hsame : s.current_app = inp.app_name
    · rw [coding_update_same cfg s inp.app_name inp.now hsame]
    · cases hstart : s.app_start_time with
      | none => rw [coding_update_noflush cfg s inp.app_name inp.now hsame (Or.inl hstart)]
      | some a =>
        by_cases hprev : is_coding_app cfg s.current_app = true
        · rw [coding_update_flush cfg s inp.app_name inp.now a hsame hprev hstart]
          dsimp only
          have := h a hstart
          linarith
        · rw [coding_update_noflush cfg s inp.app_name inp.now hsame
            (Or.inr (by simpa using hprev))]
  · rw [tick_noncoding cfg s inp (by simpa using hcode)]
    by_cases hc : 0 < s.continuous_coding_time
    · cases hstart : s.app_start_time with
      | none => rw [noncoding_update_reset_nostart s inp.app_name inp.now hc hstart]
      | some a =>
        rw [noncoding_update_flush s inp.app_name inp.now a hc hstart]
        dsimp only
        have := h a hstart
        linarith
    · rw [noncoding_update_skip s inp.app_name inp.now hc]

theorem c8_witness :
    (⟨"Code", some 3, 1, 4, false, 0⟩ : MonitorState).total_coding_time
      ≤ (tick cfgA ⟨"Code", some 3, 1, 4, false, 0⟩ ⟨"Vim", 5, .exn, .exn⟩).total_coding_time := by
  refine c8_total_monotone cfgA ⟨"Code", some 3, 1, 4, false, 0⟩ ⟨"Vim", 5, .exn, .exn⟩ ?_
  intro a ha
  have h3 : (3 : ℚ) = a := Option.some_inj.mp ha
  rw [← h3]
  norm_num

/-- C2: M consecutive coding ticks at the sample cadence starting from an
idle state, followed by one non-coding tick, reset the continuous counter
to 0 and grow the total by exactly `M * sampleInterval` in all (the final
flush accounts for whatever intermediate app changes already flushed). -/
theorem c2_session_flush (cfg : Config) (s : MonitorState) (w : TickInput)
    (ws : List TickInput) (z : TickInput) (t0 : ℚ)
    (hi : 0 < cfg.check_interval_seconds)
    (hcont : s.continuous_coding_time = 0)
    (hcur : is_coding_app cfg s.current_app = false)
    (hw : is_coding_app cfg w.app_name = true)
    (hwt : w.now = t0)
    (hws : ∀ x ∈ ws, is_coding_app cfg x.app_name = true)
    (hwst : ∀ (k : ℕ) (hk : k < ws.length),
      (ws.get ⟨k, hk⟩).now = t0 + ((k : ℚ) + 1) * cfg.check_interval_seconds)
    (hz : is_coding_app cfg z.app_name = false)
    (hzt : z.now = t0 + ((ws.length : ℚ) + 1) * cfg.check_interval_seconds) :
    (tick cfg (tick_seq cfg (tick cfg s w) ws) z).continuous_coding_time = 0 ∧
    (tick cfg (tick_seq cfg (tick cfg s w) ws) z).total_coding_time
      = s.total_coding_time + ((ws.length : ℚ) + 1) * cfg.check_interval_seconds := by
  obtain ⟨hc1, hs1, hk1, ht1⟩ := tick_first_coding cfg s w hw hcur
  obtain ⟨a2, h1, h2, _, h4⟩ :=
    coding_run cfg ws (tick cfg s w) w.now hws (by rw [hc1]; exact hw) hs1
  have hpos : 0 < (tick_seq cfg (tick cfg s w) ws).continuous_coding_time := by
    rw [h4, hk1, hcont]
    have hnn : (0 : ℚ) ≤ (ws.length : ℚ) * cfg.check_interval_seconds :=
      mul_nonneg (Nat.cast_nonneg _) (le_of_lt hi)
    linarith
  rw [tick_noncoding cfg _ z hz,
    noncoding_update_flush _ z.app_name z.now a2 hpos h1]
  refine ⟨rfl, ?_⟩
  dsimp only
  rw [ht1, hwt] at h2
  rw [hzt]
  linarith

theorem c2_witness :
    (tick cfgA (tick_seq cfgA (tick cfgA initial_state ⟨"Code", 0, .exn, .exn⟩)
        [⟨"Vim", 1, .exn, .exn⟩]) ⟨"Finder", 2, .exn, .exn⟩).continuous_coding_time = 0 ∧
    (tick cfgA (tick_seq cfgA (tick cfgA initial_state ⟨"Code", 0, .exn, .exn⟩)
        [⟨"Vim", 1, .exn, .exn⟩]) ⟨"Finder", 2, .exn, .exn⟩).total_coding_time
      = initial_state.total_coding_time
        + ((([⟨"Vim", 1, .exn, .exn⟩] : List TickInput).length : ℚ) + 1)
            * cfgA.check_interval_seconds := by
  refine c2_session_flush cfgA initial_state ⟨"Code", 0, .exn, .exn⟩
    [⟨"Vim", 1, .exn, .exn⟩] ⟨"Finder", 2, .exn, .exn⟩ 0
    (by norm_num [cfgA]) rfl (by decide) (by decide) rfl ?_ ?_ (by decide) ?_
  · intro x hx
    rw [List.mem_singleton] at hx
    subst hx
    decide
  · intro k hk
    have hk0 : k = 0 := by
      simp only [List.length_singleton] at hk
      omega
    subst hk0
    show (1 : ℚ) = 0 + ((0 : ℚ) + 1) * cfgA.check_interval_seconds
    norm_num [cfgA]
  · show (2 : ℚ) = 0 + (((1 : ℕ) : ℚ) + 1) * cfgA.check_interval_seconds
    norm_num [cfgA]

/-- C1 counterexample: with both remote actions failing at the first
call, two `enable_deep_mode` calls one second apart (well within the 1800
second refresh interval) both pass the guard and hence both issue the
remote actions — "at most once regardless of the outcome of the first
call" is false. -/
theorem c1_counterexample :
    ((1 : ℚ) - 0 ≤ cfgA.status_update_interval_seconds) ∧
    engage_issues cfgA initial_state 0 = true ∧
    engage_issues cfgA
      (enable_deep_mode cfgA initial_state 0
        (NetOutcome.reply false) (NetOutcome.reply false)).2 1 = true := by
  refine ⟨by norm_num [cfgA], rfl, ?_⟩
  norm_num [enable_deep_mode, engage_issues, set_slack_dnd, set_slack_status,
    cfgA, initial_state, show ¬("tok" : String) = "" from by decide]

/-- C1 (amended): two `enable_deep_mode` calls within
`statusRefreshInterval` issue the remote actions at most once, provided
that, if the first call reaches the remote actions, at least one of them
succeeds. -/
theorem c1_amended_debounce (cfg : Config) (s : MonitorState) (t1 t2 : ℚ)
    (d1 st1 : NetOutcome)
    (hwithin : t2 - t1 ≤ cfg.status_update_interval_seconds)
    (hok : engage_issues cfg s t1 = true →
      ((set_slack_dnd cfg d1).1 || (set_slack_status cfg st1).1) = true) :
    ¬(engage_issues cfg s t1 = true ∧
      engage_issues cfg (enable_deep_mode cfg s t1 d1 st1).2 t2 = true) := by
  rintro ⟨h1, h2⟩
  rw [enable_success cfg s t1 d1 st1 h1 (hok h1)] at h2
  unfold engage_issues at h2
  simp only [Bool.not_true, Bool.false_or, decide_eq_true_eq] at h2
  linarith

theorem c1_witness :
    ((1 : ℚ) - 0 ≤ cfgA.status_update_interval_seconds) ∧
    ¬(engage_issues cfgA initial_state 0 = true ∧
      engage_issues cfgA
        (enable_deep_mode cfgA initial_state 0
          (NetOutcome.reply true) NetOutcome.exn).2 1 = true) :=
  ⟨by norm_num [cfgA],
   c1_amended_debounce cfgA initial_state 0 1 (NetOutcome.reply true) NetOutcome.exn
     (by norm_num [cfgA])
     (fun _ => by
       norm_num [set_slack_dnd, set_slack_status, cfgA,
         show ¬("tok" : String) = "" from by decide])⟩

/-- C6 counterexample: a failed query with empty output, empty stderr and
non-zero exit code makes `get_active_app` return the empty string, not
"Unknown". -/
theorem c6_counterexample :
    ¬get_active_app (QueryOutcome.completed "" "" 1) = "Unknown" := by decide

/-- C6 (amended): `get_active_app` returns "Unknown" exactly on a raised
exception or non-empty stderr; with empty stderr it returns the stripped
stdout — even when that is empty or the exit code is non-zero — and it
never propagates an error (it is a total function). -/
theorem c6_amended_sampler (out err : String) (c : Int) :
    get_active_app QueryOutcome.exn = "Unknown" ∧
    (¬err = "" → get_active_app (QueryOutcome.completed out err c) = "Unknown") ∧
    get_active_app (QueryOutcome.completed out "" c) = py_strip out := by
  refine ⟨rfl, fun h => ?_, ?_⟩
  · show (if err = "" then py_strip out else "Unknown") = "Unknown"
    rw [if_neg h]
  · rfl

theorem c6_witness :
    get_active_app (QueryOutcome.completed " Code " "err" 0) = "Unknown" ∧
    get_active_app (QueryOutcome.completed " Code " "" 0) = py_strip " Code " :=
  ⟨(c6_amended_sampler " Code " "err" 0).2.1 (by decide),
   (c6_amended_sampler " Code " "" 0).2.2⟩

/-- C7: an `enable_deep_mode` call that reaches the remote actions and in
which both fail returns false and leaves the state unchanged. -/
theorem c7_both_fail_unchanged (cfg : Config) (s : MonitorState) (now : ℚ)
    (d st : NetOutcome)
    (hreach : engage_issues cfg s now = true)
    (hd : (set_slack_dnd cfg d).1 = false)
    (hst : (set_slack_status cfg st).1 = false) :
    enable_deep_mode cfg s now d st = (false, s) := by
  unfold enable_deep_mode
  rw [if_pos hreach, hd, hst]
  simp

theorem c7_witness :
    enable_deep_mode cfgNoTok initial_state 5 NetOutcome.exn NetOutcome.exn
      = (false, initial_state) :=
  c7_both_fail_unchanged cfgNoTok initial_state 5 NetOutcome.exn NetOutcome.exn
    rfl (by decide) (by decide)

/-- C9: with no configured token, both remote-action wrappers return
false without attempting any network I/O. -/
theorem c9_no_token_no_io (cfg : Config) (d st : NetOutcome)
    (h : cfg.slack_token = "") :
    set_slack_dnd cfg d = (false, false) ∧ set_slack_status cfg st = (false, false) := by
  unfold set_slack_dnd set_slack_status
  rw [if_pos h, if_pos h]
  exact ⟨rfl, rfl⟩

theorem c9_witness :
    set_slack_dnd cfgNoTok NetOutcome.exn = (false, false) ∧
    set_slack_status cfgNoTok (NetOutcome.reply true) = (false, false) :=
  c9_no_token_no_io cfgNoTok NetOutcome.exn (NetOutcome.reply true) rfl

/-- C10: in the monitoring loop `enable_deep_mode` is invoked only when
`deep_mode_active` is false; no tick ever resets `deep_mode_active` to
false; consequently once it is true no later tick of the run issues the
remote actions. -/
theorem c10_engage_discipline :
    (∀ (cfg : Config) (s : MonitorState) (inp : TickInput),
      tick_invokes_engage cfg s inp = true → s.deep_mode_active = false) ∧
    (∀ (cfg : Config) (s : MonitorState) (inp : TickInput),
      s.deep_mode_active = true → (tick cfg s inp).deep_mode_active = true) ∧
    (∀ (cfg : Config) (s : MonitorState) (ws : List TickInput),
      s.deep_mode_active = true → seq_issues cfg s ws = 0) := by
  refine ⟨?_, tick_active_mono, ?_⟩
  · intro cfg s inp h
    unfold tick_invokes_engage at h
    simp only [Bool.and_eq_true, Bool.not_eq_true'] at h
    rw [← (coding_update_mode_fields cfg s inp.app_name inp.now).1]
    exact h.2.2
  · intro cfg s ws
    induction ws generalizing s with
    | nil => intro _; rfl
    | cons x xs ih =>
      intro hact
      have hti : tick_issues cfg s x = false := by
        unfold tick_issues tick_invokes_engage
        rw [(coding_update_mode_fields cfg s x.app_name x.now).1, hact]
        simp
      show (cond (tick_issues cfg s x) 1 0) + seq_issues cfg (tick cfg s x) xs = 0
      rw [hti, ih (tick cfg s x) (tick_active_mono cfg s x hact)]
      rfl

theorem c10_witness :
    seq_issues cfgA { initial_state with deep_mode_active := true }
      [⟨"Code", 0, .exn, .exn⟩] = 0 :=
  c10_engage_discipline.2.2 cfgA { initial_state with deep_mode_active := true }
    [⟨"Code", 0, .exn, .exn⟩] rfl

end CodingMonitor
